import Mathlib

/-!
Verification of the TXFB form-schema builder, serializer and renderer.

This file gives a shallow embedding of the schema model implemented in
`src/webparts/adminWebPart/components/NewEForm.tsx` (the `NewForm` builder
component and the `Eform` renderer component) and proves properties of it.

Modelling conventions:
* React state (`NewFormState`) becomes the record `BuilderState`; each
  `setState` callback becomes a pure function `BuilderState → BuilderState`
  (or `→ Option _` when the handler can bail out with an `alert`/`return`,
  which we model as `none`).
* JavaScript numbers entered through `<input type="number">` are held in the
  state as strings, exactly as in the source.  `jsNumber` models the
  `Number(string)` coercion on the domain actually reachable from those
  inputs (the empty string, decimal-digit strings, and a leading minus);
  strings outside that domain are mapped to `none`, which plays the role of
  `NaN` (`NaN` comparisons are modelled case by case where they occur).
* `Option` fields model optional/undefined object properties.  For numeric
  object properties `none` stands for an absent property or a `NaN` value
  (the code treats both as falsy wherever it reads them back).
* `alert` messages are not modelled; a validation failure is just `none`.
-/

namespace TXFB

/-- JavaScript `String.prototype.trim`: strips whitespace from both ends. -/
def jsTrim (s : String) : String :=
  String.mk (((s.data.dropWhile Char.isWhitespace).reverse.dropWhile Char.isWhitespace).reverse)

/-- A non-empty all-digit character sequence read as a decimal number. -/
def parseDigits (cs : List Char) : Option Nat :=
  if cs ≠ [] ∧ cs.all Char.isDigit then
    some (cs.foldl (fun n c => n * 10 + (c.toNat - 48)) 0)
  else none

/-- `Number(s)` for the strings reachable from the numeric text inputs:
`Number("") = 0`, decimal digits parse (with an optional leading minus),
and any other string gives `none` (standing for `NaN`). -/
def jsNumber (s : String) : Option Int :=
  match s.data with
  | [] => some 0
  | '-' :: rest => (parseDigits rest).map (fun n => -(n : Int))
  | cs => (parseDigits cs).map (fun n => (n : Int))

/-- `Number(x) < 1` with `NaN < 1` being `false`. -/
def nanLt1 : Option Int → Bool
  | some n => n < 1
  | none => false

/-- `len === Number(x)` with `len === NaN` being `false`. -/
def eqLen : Option Int → Nat → Bool
  | some n, k => n = (k : Int)
  | none, _ => false

/-- One entry of `tableColumnDefs`: `{ name, type, options? }`. -/
structure ColDef where
  name : String
  type : String
  options : Option (List String)
deriving DecidableEq, Repr

/-- The `ColumnConfig` interface: one field of a form schema as stored in
`ConfigurationJSON`.  `order` is `none` when the user-supplied order string
did not parse to a number (`NaN`). -/
structure ColumnConfig where
  label : String
  internalName : String
  type : String
  required : Bool
  order : Option Int
  options : Option (List String) := none
  tableName : Option String := none
  tableRows : Option Int := none
  tableColumns : Option Int := none
  tableHeaders : Option (List String) := none
  tableColumnDefs : Option (List ColDef) := none
  tableData : Option (List (List String)) := none
  htmlContent : Option String := none
deriving DecidableEq, Repr

/-- The `NewFormState` interface (the two purely visual fold/unfold booleans
`isFormInfoOpen` and `isFieldsConfigOpen` are omitted). -/
structure BuilderState where
  formTitle : String
  description : String
  columns : List ColumnConfig
  newColumnName : String
  newInternalName : String
  newColumnType : String
  required : Bool
  order : String
  options : List String
  newChoiceValue : String
  tableName : String
  tableRows : String
  tableColumns : String
  tableHeaders : List String
  currentHeaderInput : String
  tableData : List (List String)
  plainHtmlInput : String
  tableColumnDefs : List ColDef
  currentHeaderType : String
  currentHeaderOptions : List String
  currentHeaderOptionInput : String
deriving DecidableEq, Repr

/-- The state installed by the `NewForm` constructor. -/
def emptyBuilder : BuilderState where
  formTitle := ""
  description := ""
  columns := []
  newColumnName := ""
  newInternalName := ""
  newColumnType := "text"
  required := false
  order := ""
  options := []
  newChoiceValue := ""
  tableName := ""
  tableRows := ""
  tableColumns := ""
  tableHeaders := []
  currentHeaderInput := ""
  tableData := []
  plainHtmlInput := ""
  tableColumnDefs := []
  currentHeaderType := "text"
  currentHeaderOptions := []
  currentHeaderOptionInput := ""

/-- `_addChoice`: appends the trimmed pending choice value to `options`;
no-op when the value trims to empty. -/
def addChoice (s : BuilderState) : BuilderState :=
  if jsTrim s.newChoiceValue = "" then s
  else { s with
    options := s.options ++ [jsTrim s.newChoiceValue]
    newChoiceValue := "" }

/-- `_addTableHeader`: appends the trimmed header to both `tableHeaders` and
`tableColumnDefs` (type defaulting to `"text"`, options attached only when
non-empty) and resets the per-header transient inputs. -/
def addTableHeader (s : BuilderState) : BuilderState :=
  if jsTrim s.currentHeaderInput = "" then s
  else
    let header := jsTrim s.currentHeaderInput
    let ty := if s.currentHeaderType = "" then "text" else s.currentHeaderType
    let opts := if s.currentHeaderOptions.length > 0 then some s.currentHeaderOptions else none
    { s with
      tableHeaders := s.tableHeaders ++ [header]
      tableColumnDefs := s.tableColumnDefs ++ [{ name := header, type := ty, options := opts }]
      currentHeaderInput := ""
      currentHeaderType := "text"
      currentHeaderOptions := []
      currentHeaderOptionInput := "" }

/-- `_removeTableHeader`: `filter((_, i) => i !== index)` on both lists,
i.e. removal at an index, identity when the index is out of range. -/
def removeTableHeader (s : BuilderState) (index : Nat) : BuilderState :=
  { s with
    tableHeaders := s.tableHeaders.eraseIdx index
    tableColumnDefs := s.tableColumnDefs.eraseIdx index }

/-- `_addHeaderOption`. -/
def addHeaderOption (s : BuilderState) : BuilderState :=
  if jsTrim s.currentHeaderOptionInput = "" then s
  else { s with
    currentHeaderOptions := s.currentHeaderOptions ++ [jsTrim s.currentHeaderOptionInput]
    currentHeaderOptionInput := "" }

/-- `_removeHeaderOption`. -/
def removeHeaderOption (s : BuilderState) (index : Nat) : BuilderState :=
  { s with currentHeaderOptions := s.currentHeaderOptions.eraseIdx index }

/-- Length of a freshly pushed row in `_setTableCell`:
`Number(prev.tableColumns) || (c + 1)` elements — the parsed column count
when it is a non-zero number (a negative count yields an empty row, as
`Array.from({length: n})` clamps), and `c + 1` when it is `0` or `NaN`. -/
def newRowLen (tableColumns : String) (c : Nat) : Nat :=
  match jsNumber tableColumns with
  | some n => if n = 0 then c + 1 else n.toNat
  | none => c + 1

/-- `_setTableCell(r, c, value)`: grows `tableData` to at least `r + 1` rows
(new rows filled with `""`), pads row `r` to at least `c + 1` cells with
`""`, then writes `value` at `(r, c)`. -/
def setTableCell (s : BuilderState) (r c : Nat) (v : String) : BuilderState :=
  let grown := s.tableData ++
    List.replicate (r + 1 - s.tableData.length) (List.replicate (newRowLen s.tableColumns c) "")
  let row := grown.getD r []
  let row2 := row ++ List.replicate (c + 1 - row.length) ""
  { s with tableData := grown.set r (row2.set c v) }

/-- The internal-name derivation in `_addColumn`:
`.replace(/\s+/g, "").replace(/[^a-zA-Z0-9]/g, "")`. -/
def stripInternalName (label : String) : String :=
  String.mk (((label.data.filter (fun ch => !ch.isWhitespace))).filter (fun ch => ch.isAlphanum))

/-- One step of `Math.max` over a spread of possibly-`NaN` numbers:
`none` (NaN) is absorbing. -/
def maxStep (acc : Option Int) (d : ColumnConfig) : Option Int :=
  match acc, d.order with
  | some m, some o => some (max m o)
  | _, _ => none

/-- `Math.max(...columns.map(c => c.order))` guarded by
`columns.length > 0 ? … : 0`. -/
def jsMaxOrder : List ColumnConfig → Option Int
  | [] => some 0
  | c :: cs => cs.foldl maxStep c.order

/-- Order resolution in `_addColumn`: the explicit order string when
non-empty, otherwise the maximum existing order plus one. -/
def computeOrder (s : BuilderState) : Option Int :=
  if s.order ≠ "" then jsNumber s.order
  else (jsMaxOrder s.columns).map (· + 1)

def choiceTypes : List String := ["dropdown", "radio", "checkbox"]

/-- The `htmltable` validation block of `_addColumn` (any failing check
raises an `alert` and aborts). -/
def htmltableInvalid (s : BuilderState) : Bool :=
  jsTrim s.tableName == "" ||
  s.tableRows == "" || nanLt1 (jsNumber s.tableRows) ||
  s.tableColumns == "" || nanLt1 (jsNumber s.tableColumns) ||
  !(eqLen (jsNumber s.tableColumns) s.tableHeaders.length)

/-- The `newColumn` object built by `_addColumn`: the base record with
the internal-name and order resolution, then the type-specific payload
attachments. -/
def buildColumn (s : BuilderState) : ColumnConfig :=
  let base : ColumnConfig :=
    { label := s.newColumnName
      internalName := if s.newInternalName ≠ "" then s.newInternalName
        else stripInternalName s.newColumnName
      type := s.newColumnType
      required := s.required
      order := computeOrder s }
  let withOptions :=
    if s.newColumnType ∈ choiceTypes then { base with options := some s.options } else base
  let withTable :=
    if s.newColumnType = "htmltable" then
      { withOptions with
        tableName := some s.tableName
        tableRows := jsNumber s.tableRows
        tableColumns := jsNumber s.tableColumns
        tableHeaders := some (s.tableColumnDefs.map ColDef.name)
        tableColumnDefs := some s.tableColumnDefs
        tableData := some s.tableData }
    else if s.newColumnType = "htmlrender" then
      { withOptions with
        tableName := some s.tableName
        tableRows := jsNumber s.tableRows
        tableColumns := jsNumber s.tableColumns
        tableHeaders := some s.tableHeaders
        tableColumnDefs := some s.tableColumnDefs
        tableData := some s.tableData }
    else withOptions
  if s.newColumnType = "plainhtml" then { withTable with htmlContent := some s.plainHtmlInput }
  else withTable

/-- The success-path state update of `_addColumn`: appends the new column
and resets the listed transient inputs.  Note that the source's reset does
not touch `tableColumnDefs`, `newColumnType`, `required`, `newChoiceValue`
or the per-header inputs. -/
def resetAfterAdd (s : BuilderState) (newColumn : ColumnConfig) : BuilderState :=
  { s with
    columns := s.columns ++ [newColumn]
    newColumnName := ""
    newInternalName := ""
    order := ""
    options := []
    tableName := ""
    tableRows := ""
    tableColumns := ""
    tableHeaders := []
    currentHeaderInput := ""
    tableData := []
    plainHtmlInput := "" }

/-- `_addColumn`: validates the draft, then builds and appends the new
`ColumnConfig` and resets the transient inputs. -/
def addColumn (s : BuilderState) : Option (ColumnConfig × BuilderState) :=
  if jsTrim s.newColumnName = "" then none
  else if s.newColumnType = "htmltable" && htmltableInvalid s then none
  else some (buildColumn s, resetAfterAdd s (buildColumn s))

/-- The `disabled` guard on the Add Column button. -/
def addColumnEnabled (s : BuilderState) : Bool :=
  !(s.newColumnName == "" ||
    (decide (s.newColumnType ∈ choiceTypes) && s.options.isEmpty) ||
    (s.newColumnType == "htmltable" &&
      (s.tableName == "" || s.tableRows == "" || s.tableColumns == "" ||
       !(eqLen (jsNumber s.tableColumns) s.tableHeaders.length))))

/-- The complete add-field operation: the button guard composed with
`_addColumn`. -/
def addField (s : BuilderState) : Option (ColumnConfig × BuilderState) :=
  if addColumnEnabled s then addColumn s else none

/-- The sort comparator of `_submitForm`: `(a, b) => a.order - b.order`,
i.e. ascending numeric order (meaningful when both orders are numbers). -/
def orderLe (a b : ColumnConfig) : Bool :=
  a.order.getD 0 ≤ b.order.getD 0

/-- `[...columns].sort((a, b) => a.order - b.order)`: the ECMAScript sort is
stable, which a stable merge sort reproduces exactly. -/
def sortFields (cols : List ColumnConfig) : List ColumnConfig :=
  cols.mergeSort orderLe

/-- The serialized document shape `{ formTitle, description, fields }`. -/
structure FormDoc where
  formTitle : String
  description : String
  fields : List ColumnConfig
deriving DecidableEq, Repr

/-- The document-producing core of `_submitForm`: validation of the form
metadata followed by the stable sort by `order` (the store write and the
post-save state reset are outside the schema model). -/
def submitForm (s : BuilderState) : Option FormDoc :=
  if jsTrim s.formTitle = "" then none
  else if s.columns.isEmpty then none
  else some { formTitle := s.formTitle, description := s.description
              fields := sortFields s.columns }

/-! ### The `Eform` renderer (`renderDynamicField`)

The renderer walks the parsed configuration and emits one control per
field.  We model the emitted React tree as the `Control` inductive,
keeping exactly the data the source binds into each control (labels,
names, option lists, cell values) and dropping the styling. -/

/-- The live answer map `this.state.formData`: string keys to string
values (checkbox answers are stored comma-joined). -/
def lookupFD : List (String × String) → String → Option String
  | [], _ => none
  | (k, v) :: rest, key => if k = key then some v else lookupFD rest key

/-- The answer-map key of a table cell: `` `${field.internalName}-${r}-${c}` ``. -/
def cellKey (f : ColumnConfig) (r c : Nat) : String :=
  f.internalName ++ "-" ++ toString r ++ "-" ++ toString c

/-- `htmltable` column definitions:
`field.tableColumnDefs || (field.tableHeaders || []).map(h => ({name: h, type: 'text'}))`. -/
def resolvedColDefs (f : ColumnConfig) : List ColDef :=
  match f.tableColumnDefs with
  | some ds => ds
  | none => (f.tableHeaders.getD []).map (fun h => { name := h, type := "text", options := none })

/-- `colDefs[c] || { name: `Column ${c+1}`, type: 'text' }` in the
`htmltable` cell renderer. -/
def htmltableColDef (f : ColumnConfig) (c : Nat) : ColDef :=
  (resolvedColDefs f).getD c { name := "Column " ++ toString (c + 1), type := "text", options := none }

/-- The stored-data fallback of the `htmltable` cell renderer:
`field.tableData && field.tableData[r] ? field.tableData[r][c] : ""`
(`none` models a present row shorter than `c + 1`, i.e. `undefined`). -/
def storedCell (f : ColumnConfig) (r c : Nat) : Option String :=
  match f.tableData with
  | none => some ""
  | some data =>
    match data.get? r with
    | none => some ""
    | some row => row.get? c

/-- `this.state.formData?.[name] ?? storedFallback` — the cell value before
the yes/no defaulting. -/
def rawCellVal (fd : List (String × String)) (f : ColumnConfig) (r c : Nat) : Option String :=
  match lookupFD fd (cellKey f r c) with
  | some v => some v
  | none => storedCell f r c

/-- JavaScript falsiness of a possibly-undefined string: `undefined` and
`""` are falsy. -/
def jsFalsy : Option String → Bool
  | none => true
  | some s => s == ""

/-- The `htmltable` cell value after `if (def.type === 'yesno' && !val) val = 'false'`. -/
def htmltableCellVal (fd : List (String × String)) (f : ColumnConfig) (r c : Nat) :
    Option String :=
  let v := rawCellVal fd f r c
  if (htmltableColDef f c).type == "yesno" && jsFalsy v then some "false" else v

/-- The `htmlrender` stored cell value:
`renderData[r] && typeof renderData[r][c] !== 'undefined' ? renderData[r][c] : ""`. -/
def renderCellValue (f : ColumnConfig) (r c : Nat) : String :=
  match f.tableData with
  | none => ""
  | some data =>
    match data.get? r with
    | none => ""
    | some row => row.getD c ""

/-- `(field.tableColumnDefs && field.tableColumnDefs[c]) || default` in the
`htmlrender` case. -/
def htmlrenderColDef (f : ColumnConfig) (c : Nat) : ColDef :=
  match f.tableColumnDefs with
  | some ds => ds.getD c { name := "Column " ++ toString (c + 1), type := "text", options := none }
  | none => { name := "Column " ++ toString (c + 1), type := "text", options := none }

/-- The `htmlrender` display value after the explicit yes/no defaulting. -/
def htmlrenderDisplay (f : ColumnConfig) (r c : Nat) : String :=
  let cv := renderCellValue f r c
  if (htmlrenderColDef f c).type == "yesno" && cv == "" then "false" else cv

/-- One editable table cell as emitted by the `htmltable` cell renderer. -/
inductive CellControl where
  | numberInput (value : String)
  | dateInput (value : String)
  | selectInput (value : String) (options : List String)
  | checkboxGroup (selections : List String) (options : List String)
  | yesnoCheckbox (checked : Bool)
  | textareaInput (value : String)
  | textInput (value : String)
deriving DecidableEq, Repr

/-- The `renderCell` dispatch of the `htmltable` case, keyed by the
resolved column definition's type. -/
def renderCellControl (fd : List (String × String)) (f : ColumnConfig) (r c : Nat) :
    CellControl :=
  let cd := htmltableColDef f c
  let v := htmltableCellVal fd f r c
  if cd.type = "number" ∨ cd.type = "currency" then .numberInput (v.getD "")
  else if cd.type = "date" then .dateInput (v.getD "")
  else if cd.type = "dropdown" ∨ cd.type = "radio" then .selectInput (v.getD "") (cd.options.getD [])
  else if cd.type = "checkbox" then
    .checkboxGroup
      (match v with
       | some s => if s ≠ "" then s.splitOn "," else []
       | none => [])
      (cd.options.getD [])
  else if cd.type = "yesno" then .yesnoCheckbox (v == some "true")
  else if cd.type = "multiline" then .textareaInput (v.getD "")
  else .textInput (v.getD "")

/-- The control tree emitted for one field by `renderDynamicField`. -/
inductive Control where
  | textField (label name : String) (required : Bool)
  | numberField (label name : String)
  | dateField (label name : String)
  | multilineField (label name : String)
  | dropdownField (label name : String) (options : List String)
  | radioField (label name : String) (options : List String)
  | checkboxField (label name : String) (options : List String)
  | yesnoField (label name : String)
  | currencyField (label name : String)
  | htmlTable (tableName : Option String) (headers : List String)
      (cells : List (List CellControl))
  | htmlRenderTable (tableName : Option String) (headers : List String)
      (cells : List (List String))
  | plainHtml (label : String) (content : String)
deriving DecidableEq, Repr

/-- The field types with a `case` in the `renderDynamicField` switch
(`person` deliberately has none and falls through to the default). -/
def knownFieldTypes : List String :=
  ["text", "number", "date", "multiline", "dropdown", "radio", "checkbox",
   "yesno", "currency", "htmltable", "htmlrender", "plainhtml"]

/-- `Eform.renderDynamicField`: pure dispatch on `field.type`, returning the
emitted control (or `none` from the default case) together with the list of
`console.warn` diagnostics. -/
def renderDynamicField (fd : List (String × String)) (f : ColumnConfig) :
    Option Control × List String :=
  if f.type = "text" then (some (.textField f.label f.internalName f.required), [])
  else if f.type = "number" then (some (.numberField f.label f.internalName), [])
  else if f.type = "date" then (some (.dateField f.label f.internalName), [])
  else if f.type = "multiline" then (some (.multilineField f.label f.internalName), [])
  else if f.type = "dropdown" then
    (some (.dropdownField f.label f.internalName (f.options.getD [])), [])
  else if f.type = "radio" then
    (some (.radioField f.label f.internalName (f.options.getD [])), [])
  else if f.type = "checkbox" then
    (some (.checkboxField f.label f.internalName (f.options.getD [])), [])
  else if f.type = "yesno" then (some (.yesnoField f.label f.internalName), [])
  else if f.type = "currency" then (some (.currencyField f.label f.internalName), [])
  else if f.type = "htmltable" then
    let rows := (f.tableRows.getD 0).toNat
    let cols := (f.tableColumns.getD 0).toNat
    (some (.htmlTable f.tableName
      ((List.range cols).map (fun c =>
        let n := (htmltableColDef f c).name
        if n = "" then "Column " ++ toString (c + 1) else n))
      ((List.range rows).map (fun r =>
        (List.range cols).map (fun c => renderCellControl fd f r c)))), [])
  else if f.type = "htmlrender" then
    let rows := (f.tableRows.getD 0).toNat
    let cols := (f.tableColumns.getD 0).toNat
    (some (.htmlRenderTable f.tableName
      ((List.range cols).map (fun c =>
        let h := (f.tableHeaders.getD []).getD c ""
        if h = "" then "Column " ++ toString (c + 1) else h))
      ((List.range rows).map (fun r =>
        (List.range cols).map (fun c => htmlrenderDisplay f r c)))), [])
  else if f.type = "plainhtml" then (some (.plainHtml f.label (f.htmlContent.getD "")), [])
  else (none, ["Unsupported field type: " ++ f.type])

/-! ### Serialization

`_submitForm` stores `JSON.stringify(finalJson)`; `Eform.render` reads it
back with `JSON.parse`.  We model the serialized text by a JSON value tree
(the concrete character syntax of `JSON.stringify` is standard and adds
nothing to the schema model).  `encodeDoc` produces the canonical shape
`{formTitle, description, fields: [...]}`, omitting the optional keys that
`JSON.stringify` drops when the property was never assigned; `decodeDoc`
is the corresponding reading of a parsed value. -/

/-- JSON values.  Integer numerics suffice for the schema model; a `NaN`
numeric property (`none` in the model) stringifies to `null`. -/
inductive Json where
  | null
  | bool (b : Bool)
  | num (n : Int)
  | str (s : String)
  | arr (elems : List Json)
  | obj (fields : List (String × Json))
deriving Repr

def encodeStrList (l : List String) : Json :=
  .arr (l.map .str)

def encodeGrid (g : List (List String)) : Json :=
  .arr (g.map encodeStrList)

/-- A key that `JSON.stringify` emits only when the property is present. -/
def optField (k : String) : Option Json → List (String × Json)
  | none => []
  | some j => [(k, j)]

def encodeOrder : Option Int → Json
  | some n => .num n
  | none => .null

def encodeColDef (d : ColDef) : Json :=
  .obj ([("name", .str d.name), ("type", .str d.type)] ++
    optField "options" (d.options.map encodeStrList))

def encodeColDefList (ds : List ColDef) : Json :=
  .arr (ds.map encodeColDef)

/-- The key-value list of one serialized `ColumnConfig`. -/
def encodeColumnKVs (c : ColumnConfig) : List (String × Json) :=
  [("label", .str c.label), ("internalName", .str c.internalName),
   ("type", .str c.type), ("required", .bool c.required),
   ("order", encodeOrder c.order)] ++
  optField "options" (c.options.map encodeStrList) ++
  optField "tableName" (c.tableName.map .str) ++
  optField "tableRows" (c.tableRows.map .num) ++
  optField "tableColumns" (c.tableColumns.map .num) ++
  optField "tableHeaders" (c.tableHeaders.map encodeStrList) ++
  optField "tableColumnDefs" (c.tableColumnDefs.map encodeColDefList) ++
  optField "tableData" (c.tableData.map encodeGrid) ++
  optField "htmlContent" (c.htmlContent.map .str)

def encodeColumn (c : ColumnConfig) : Json :=
  .obj (encodeColumnKVs c)

/-- Serialization of the whole document. -/
def encodeDoc (d : FormDoc) : Json :=
  .obj [("formTitle", .str d.formTitle), ("description", .str d.description),
        ("fields", .arr (d.fields.map encodeColumn))]

/-- `serialize(schema)`: the document written by `_submitForm`. -/
def serialize (s : BuilderState) : Option Json :=
  (submitForm s).map encodeDoc

def jlookup : List (String × Json) → String → Option Json
  | [], _ => none
  | (k, v) :: rest, key => if k = key then some v else jlookup rest key

def decodeStr : Json → Option String
  | .str s => some s
  | _ => none

def decodeBool : Json → Option Bool
  | .bool b => some b
  | _ => none

def decodeNum : Json → Option Int
  | .num n => some n
  | _ => none

def decodeStrs : List Json → Option (List String)
  | [] => some []
  | j :: js =>
    match decodeStr j, decodeStrs js with
    | some s, some ss => some (s :: ss)
    | _, _ => none

def decodeStrList : Json → Option (List String)
  | .arr js => decodeStrs js
  | _ => none

def decodeGridRows : List Json → Option (List (List String))
  | [] => some []
  | j :: js =>
    match decodeStrList j, decodeGridRows js with
    | some r, some rs => some (r :: rs)
    | _, _ => none

def decodeGrid : Json → Option (List (List String))
  | .arr js => decodeGridRows js
  | _ => none

/-- Decoding of an optional key: an absent key is `none`, a present key
must decode. -/
def decodeOpt (dec : Json → Option α) : Option Json → Option (Option α)
  | none => some none
  | some j => (dec j).map some

def decodeOrderField : Option Json → Option (Option Int)
  | some (.num n) => some (some n)
  | some .null => some none
  | _ => none

def decodeColDef (j : Json) : Option ColDef :=
  match j with
  | .obj kvs => do
    let name ← (jlookup kvs "name").bind decodeStr
    let ty ← (jlookup kvs "type").bind decodeStr
    let options ← decodeOpt decodeStrList (jlookup kvs "options")
    some { name := name, type := ty, options := options }
  | _ => none

def decodeColDefs : List Json → Option (List ColDef)
  | [] => some []
  | j :: js =>
    match decodeColDef j, decodeColDefs js with
    | some d, some ds => some (d :: ds)
    | _, _ => none

def decodeColDefList : Json → Option (List ColDef)
  | .arr js => decodeColDefs js
  | _ => none

def decodeColumn (j : Json) : Option ColumnConfig :=
  match j with
  | .obj kvs => do
    let label ← (jlookup kvs "label").bind decodeStr
    let internalName ← (jlookup kvs "internalName").bind decodeStr
    let ty ← (jlookup kvs "type").bind decodeStr
    let required ← (jlookup kvs "required").bind decodeBool
    let order ← decodeOrderField (jlookup kvs "order")
    let options ← decodeOpt decodeStrList (jlookup kvs "options")
    let tableName ← decodeOpt decodeStr (jlookup kvs "tableName")
    let tableRows ← decodeOpt decodeNum (jlookup kvs "tableRows")
    let tableColumns ← decodeOpt decodeNum (jlookup kvs "tableColumns")
    let tableHeaders ← decodeOpt decodeStrList (jlookup kvs "tableHeaders")
    let tableColumnDefs ← decodeOpt decodeColDefList (jlookup kvs "tableColumnDefs")
    let tableData ← decodeOpt decodeGrid (jlookup kvs "tableData")
    let htmlContent ← decodeOpt decodeStr (jlookup kvs "htmlContent")
    some { label := label, internalName := internalName, type := ty,
           required := required, order := order, options := options,
           tableName := tableName, tableRows := tableRows,
           tableColumns := tableColumns, tableHeaders := tableHeaders,
           tableColumnDefs := tableColumnDefs, tableData := tableData,
           htmlContent := htmlContent }
  | _ => none

def decodeColumns : List Json → Option (List ColumnConfig)
  | [] => some []
  | j :: js =>
    match decodeColumn j, decodeColumns js with
    | some c, some cs => some (c :: cs)
    | _, _ => none

/-- `deserialize(text)`: reading a parsed configuration document back into
a `FormDoc`. -/
def deserialize (j : Json) : Option FormDoc :=
  match j with
  | .obj kvs => do
    let formTitle ← (jlookup kvs "formTitle").bind decodeStr
    let description ← (jlookup kvs "description").bind decodeStr
    let fields ←
      match jlookup kvs "fields" with
      | some (.arr js) => decodeColumns js
      | _ => none
    some { formTitle := formTitle, description := description, fields := fields }
  | _ => none

/-! ### Helper lemmas about the add-field operation -/

theorem addField_success {s : BuilderState} {col : ColumnConfig} {s2 : BuilderState}
    (h : addField s = some (col, s2)) :
    addColumnEnabled s = true ∧ jsTrim s.newColumnName ≠ "" ∧
    (s.newColumnType = "htmltable" → htmltableInvalid s = false) ∧
    col = buildColumn s ∧ s2 = resetAfterAdd s (buildColumn s) := by
  unfold addField at h
  split at h
  case isFalse => cases h
  case isTrue hen =>
    unfold addColumn at h
    split at h
    case isTrue => cases h
    case isFalse hname =>
      split at h
      case isTrue => cases h
      case isFalse hinv =>
        simp only [Option.some.injEq, Prod.mk.injEq] at h
        refine ⟨hen, hname, ?_, h.1.symm, h.2.symm⟩
        intro ht
        cases hv : htmltableInvalid s with
        | false => rfl
        | true => exact absurd (by simp [ht, hv]) hinv

set_option linter.unnecessarySeqFocus false in
theorem buildColumn_base (s : BuilderState) :
    (buildColumn s).label = s.newColumnName ∧
    (buildColumn s).internalName =
      (if s.newInternalName ≠ "" then s.newInternalName
       else stripInternalName s.newColumnName) ∧
    (buildColumn s).type = s.newColumnType ∧
    (buildColumn s).required = s.required ∧
    (buildColumn s).order = computeOrder s ∧
    (buildColumn s).options =
      (if s.newColumnType ∈ choiceTypes then some s.options else none) := by
  by_cases h1 : s.newColumnType = "htmltable" <;>
    by_cases h2 : s.newColumnType = "htmlrender" <;>
      by_cases h3 : s.newColumnType = "plainhtml" <;>
        simp [buildColumn, choiceTypes, h1, h2, h3] <;>
          split <;> simp_all

theorem buildColumn_htmltable {s : BuilderState} (h : s.newColumnType = "htmltable") :
    (buildColumn s).tableName = some s.tableName ∧
    (buildColumn s).tableRows = jsNumber s.tableRows ∧
    (buildColumn s).tableColumns = jsNumber s.tableColumns ∧
    (buildColumn s).tableHeaders = some (s.tableColumnDefs.map ColDef.name) ∧
    (buildColumn s).tableColumnDefs = some s.tableColumnDefs ∧
    (buildColumn s).tableData = some s.tableData := by
  simp [buildColumn, h, choiceTypes]

theorem buildColumn_htmlrender {s : BuilderState} (h : s.newColumnType = "htmlrender") :
    (buildColumn s).tableName = some s.tableName ∧
    (buildColumn s).tableRows = jsNumber s.tableRows ∧
    (buildColumn s).tableColumns = jsNumber s.tableColumns ∧
    (buildColumn s).tableHeaders = some s.tableHeaders ∧
    (buildColumn s).tableColumnDefs = some s.tableColumnDefs ∧
    (buildColumn s).tableData = some s.tableData := by
  simp [buildColumn, h, choiceTypes]

/-- An alphanumeric character is not whitespace. -/
theorem alphanum_not_whitespace {c : Char} (h : c.isAlphanum = true) :
    c.isWhitespace = false := by
  by_contra hw
  rw [Bool.not_eq_false] at hw
  simp only [Char.isWhitespace, Bool.or_eq_true, decide_eq_true_eq] at hw
  rcases hw with ((rfl | rfl) | rfl) | rfl <;> simp [Char.isAlphanum, Char.isAlpha,
    Char.isDigit, Char.isUpper, Char.isLower] at h

/-- Removing the whitespace and then everything non-alphanumeric keeps
exactly the alphanumeric characters. -/
theorem stripInternalName_eq_filter (label : String) :
    stripInternalName label = String.mk (label.data.filter Char.isAlphanum) := by
  unfold stripInternalName
  rw [List.filter_filter]
  congr 1
  apply List.filter_congr
  intro c _
  cases hc : c.isAlphanum
  · simp
  · simp [alphanum_not_whitespace hc]

/-! ### Claim theorems -/

/-- Claim C2, corrected: a successful `addField` appends the new field
definition to the schema's field sequence and resets the pending option
list, the pending table-header-name list and the pending cell grid to
empty — but the pending column-definition list (`tableColumnDefs`) is left
unchanged by the reset. -/
theorem claim_C2 (s : BuilderState) (col : ColumnConfig) (s2 : BuilderState)
    (h : addField s = some (col, s2)) :
    s2.columns = s.columns ++ [col] ∧ s2.options = [] ∧ s2.tableHeaders = [] ∧
    s2.tableData = [] ∧ s2.currentHeaderInput = "" ∧
    s2.tableColumnDefs = s.tableColumnDefs := by
  obtain ⟨-, -, -, hcol, hs2⟩ := addField_success h
  subst hcol hs2
  simp [resetAfterAdd]

/-- A builder state holding one pending column definition and a plain text
field draft. -/
def cw2 : BuilderState :=
  { emptyBuilder with
    newColumnName := "A"
    tableColumnDefs := [{ name := "H", type := "text", options := none }] }

/-- Claim C2, counterexample to the frozen claim: after a successful
`addField` the pending column-definition list is NOT reset to empty — it
still holds the stale definition. -/
theorem claim_C2_counterexample :
    (addField cw2).map (fun p => p.2.tableColumnDefs) =
      some [{ name := "H", type := "text", options := none }] ∧
    ([{ name := "H", type := "text", options := none }] : List ColDef) ≠ [] := by
  constructor
  · decide
  · decide

/-- Claim C2, witness: the amended theorem applied to the concrete draft. -/
theorem claim_C2_witness :
    (resetAfterAdd cw2 (buildColumn cw2)).columns = cw2.columns ++ [buildColumn cw2] ∧
    (resetAfterAdd cw2 (buildColumn cw2)).options = [] ∧
    (resetAfterAdd cw2 (buildColumn cw2)).tableHeaders = [] ∧
    (resetAfterAdd cw2 (buildColumn cw2)).tableData = [] ∧
    (resetAfterAdd cw2 (buildColumn cw2)).currentHeaderInput = "" ∧
    (resetAfterAdd cw2 (buildColumn cw2)).tableColumnDefs = cw2.tableColumnDefs :=
  claim_C2 cw2 (buildColumn cw2) (resetAfterAdd cw2 (buildColumn cw2)) (by decide)

/-- Claim C5: `addField` with a choice-typed draft (dropdown, radio or
checkbox) and zero accumulated options is rejected; when it succeeds, the
stored field's options are a snapshot of the builder's working option list
at call time, and the working option list is cleared afterwards. -/
theorem claim_C5 (s : BuilderState) :
    (s.newColumnType ∈ choiceTypes → s.options = [] → addField s = none) ∧
    (∀ col s2, addField s = some (col, s2) → s.newColumnType ∈ choiceTypes →
      col.options = some s.options ∧ s2.options = []) := by
  constructor
  · intro hc ho
    have hen : addColumnEnabled s = false := by
      simp [addColumnEnabled, hc, ho]
    simp [addField, hen]
  · intro col s2 h hc
    obtain ⟨-, -, -, hcol, hs2⟩ := addField_success h
    subst hcol hs2
    refine ⟨?_, by simp [resetAfterAdd]⟩
    rw [(buildColumn_base s).2.2.2.2.2]
    simp [hc]

/-- Claim C5, witness: a dropdown draft with no options is rejected, and
the same draft with the single accumulated option `"Yes"` succeeds storing
`options = ["Yes"]` and clearing the working list. -/
theorem claim_C5_witness :
    addField { emptyBuilder with newColumnName := "D", newColumnType := "dropdown" } = none ∧
    ((buildColumn { emptyBuilder with
        newColumnName := "D", newColumnType := "dropdown",
        options := ["Yes"] }).options = some ["Yes"] ∧
     (resetAfterAdd { emptyBuilder with
        newColumnName := "D", newColumnType := "dropdown", options := ["Yes"] }
        (buildColumn { emptyBuilder with
          newColumnName := "D", newColumnType := "dropdown",
          options := ["Yes"] })).options = []) :=
  ⟨(claim_C5 { emptyBuilder with newColumnName := "D", newColumnType := "dropdown" }).1
      (by decide) rfl,
   (claim_C5 { emptyBuilder with
        newColumnName := "D", newColumnType := "dropdown", options := ["Yes"] }).2
      _ _ (by decide) (by decide)⟩

/-- Claim C6: for an accepted field draft, an empty explicit internal name
makes `addField` derive the stored `internalName` from the label by
removing all whitespace and all non-alphanumeric characters; a non-empty
explicit internal name is used unchanged. -/
theorem claim_C6 (s : BuilderState) (col : ColumnConfig) (s2 : BuilderState)
    (h : addField s = some (col, s2)) :
    (s.newInternalName = "" →
      col.internalName = String.mk (s.newColumnName.data.filter Char.isAlphanum)) ∧
    (s.newInternalName ≠ "" → col.internalName = s.newInternalName) := by
  obtain ⟨-, -, -, hcol, -⟩ := addField_success h
  subst hcol
  rw [(buildColumn_base s).2.1]
  constructor
  · intro he
    rw [if_neg (by simp [he]), ← stripInternalName_eq_filter]
  · intro he
    rw [if_pos he]

/-- Claim C6, witness: the label `"Employee Name!"` derives the internal
name `"EmployeeName"`. -/
theorem claim_C6_witness :
    (buildColumn { emptyBuilder with newColumnName := "Employee Name!" }).internalName =
      String.mk ("Employee Name!".data.filter Char.isAlphanum) ∧
    String.mk ("Employee Name!".data.filter Char.isAlphanum) = "EmployeeName" :=
  ⟨(claim_C6 { emptyBuilder with newColumnName := "Employee Name!" }
      (buildColumn { emptyBuilder with newColumnName := "Employee Name!" })
      (resetAfterAdd { emptyBuilder with newColumnName := "Employee Name!" }
        (buildColumn { emptyBuilder with newColumnName := "Employee Name!" }))
      (by decide)).1 rfl,
   by decide⟩

/-- `Math.max` over the orders of a non-empty column list, as a fold. -/
theorem jsMaxOrder_eq_foldl :
    ∀ (cs : List ColumnConfig) (os : List Int) (acc : Int),
      cs.map ColumnConfig.order = os.map some →
      cs.foldl maxStep (some acc) = some (os.foldl max acc)
  | [], os, acc, h => by
    cases os with
    | nil => simp
    | cons o os => simp at h
  | c :: cs, os, acc, h => by
    cases os with
    | nil => simp at h
    | cons o os =>
      simp only [List.map_cons, List.cons.injEq] at h
      have hstep : maxStep (some acc) c = some (max acc o) := by
        simp [maxStep, h.1]
      rw [List.foldl_cons, hstep, List.foldl_cons]
      exact jsMaxOrder_eq_foldl cs os (max acc o) h.2

/-- Claim C7: with no explicit order supplied, the new field's order is the
maximum existing order plus one (one when the schema is empty); an explicit
numeric order is used as given. -/
theorem claim_C7 (s : BuilderState) (col : ColumnConfig) (s2 : BuilderState)
    (h : addField s = some (col, s2)) :
    (s.order ≠ "" → col.order = jsNumber s.order) ∧
    (s.order = "" → s.columns = [] → col.order = some 1) ∧
    (∀ (o : Int) (os : List Int), s.order = "" →
      s.columns.map ColumnConfig.order = some o :: os.map some →
      col.order = some (os.foldl max o + 1)) := by
  obtain ⟨-, -, -, hcol, -⟩ := addField_success h
  subst hcol
  rw [(buildColumn_base s).2.2.2.2.1]
  unfold computeOrder
  refine ⟨fun he => by rw [if_pos he], fun he hcols => ?_, fun o os he hmap => ?_⟩
  · rw [if_neg (by simp [he]), hcols]
    simp [jsMaxOrder]
  · rw [if_neg (by simp [he])]
    cases hcols : s.columns with
    | nil => rw [hcols] at hmap; simp at hmap
    | cons c cs =>
      rw [hcols] at hmap
      simp only [List.map_cons, List.cons.injEq] at hmap
      cases os with
      | nil =>
        simp only [List.map_nil] at hmap
        have hcs : cs = [] := List.eq_nil_of_map_eq_nil hmap.2
        subst hcs
        simp [jsMaxOrder, hmap.1]
      | cons o2 os2 =>
        simp only [List.map_cons] at hmap
        have := jsMaxOrder_eq_foldl cs (o2 :: os2) o (by simpa using hmap.2)
        simp only [jsMaxOrder, hmap.1, this, Option.map_some]
        simp

/-- A builder state whose schema already holds fields of orders 1 and 3. -/
def cw7 : BuilderState :=
  { emptyBuilder with
    newColumnName := "N"
    columns :=
      [{ label := "x", internalName := "x", type := "text", required := false, order := some 1 },
       { label := "y", internalName := "y", type := "text", required := false, order := some 3 }] }

/-- Claim C7, witness: a schema whose fields carry orders 1 and 3 assigns
order 4 to the next field added without an explicit order. -/
theorem claim_C7_witness :
    (buildColumn cw7).order = some ([(3 : Int)].foldl max 1 + 1) ∧
    ([(3 : Int)].foldl max 1 + 1 = 4) :=
  ⟨(claim_C7 cw7 (buildColumn cw7) (resetAfterAdd cw7 (buildColumn cw7))
      (by decide)).2.2 1 [3] rfl (by decide),
   by decide⟩

/-- Claim C1, corrected: `_addColumn` shape-validates only `htmltable`
drafts.  For an accepted `htmltable` field built from a state whose pending
column-definition list is in sync with its pending header list, both
`tableColumnDefs` and `tableHeaders` have length equal to `tableColumns`.
(`htmlrender` drafts are accepted without any validation, and `tableData`'s
dimensions are never checked — see the counterexample.) -/
theorem claim_C1 (s : BuilderState) (col : ColumnConfig) (s2 : BuilderState)
    (h : addField s = some (col, s2))
    (ht : s.newColumnType = "htmltable")
    (hsync : s.tableColumnDefs.length = s.tableHeaders.length) :
    col.tableColumns = some (s.tableHeaders.length : Int) ∧
    (col.tableColumnDefs.getD []).length = s.tableHeaders.length ∧
    (col.tableHeaders.getD []).length = s.tableHeaders.length := by
  obtain ⟨-, -, hval, hcol, -⟩ := addField_success h
  have hinv := hval ht
  subst hcol
  obtain ⟨-, -, hcols, hheads, hdefs, -⟩ := buildColumn_htmltable ht
  have heq : eqLen (jsNumber s.tableColumns) s.tableHeaders.length = true := by
    cases he : eqLen (jsNumber s.tableColumns) s.tableHeaders.length
    · exfalso
      simp [htmltableInvalid, he] at hinv
    · rfl
  have hjs : jsNumber s.tableColumns = some (s.tableHeaders.length : Int) := by
    cases hj : jsNumber s.tableColumns with
    | none => rw [hj] at heq; simp [eqLen] at heq
    | some n =>
      rw [hj] at heq
      simp only [eqLen, decide_eq_true_eq] at heq
      rw [heq]
  refine ⟨by rw [hcols, hjs], ?_, ?_⟩
  · rw [hdefs]
    simpa using hsync
  · rw [hheads]
    simpa using hsync

/-- A complete `htmlrender` draft whose header count disagrees with its
declared column count and whose cell grid is empty. -/
def cx1 : BuilderState :=
  { emptyBuilder with
    newColumnName := "T"
    newColumnType := "htmlrender"
    tableName := "N"
    tableRows := "1"
    tableColumns := "2"
    tableHeaders := ["H"]
    tableColumnDefs := [{ name := "H", type := "text", options := none }]
    tableData := [] }

/-- Claim C1, counterexample to the frozen claim: `addField` accepts this
`htmlrender` draft even though the stored field has one column definition
against `tableColumns = 2`, and a zero-row `tableData` against
`tableRows = 1`. -/
theorem claim_C1_counterexample :
    (addField cx1).map (fun p =>
      (p.1.type, (p.1.tableColumnDefs.getD []).length, p.1.tableColumns,
       (p.1.tableData.getD [[""]]).length, p.1.tableRows)) =
      some ("htmlrender", 1, some 2, 0, some 1) ∧
    (1 : Nat) ≠ (2 : Nat) ∧ (0 : Nat) ≠ (1 : Nat) :=
  ⟨by decide, by decide, by decide⟩

/-- A valid `htmltable` draft with one header for one declared column. -/
def cw1 : BuilderState :=
  { emptyBuilder with
    newColumnName := "T"
    newColumnType := "htmltable"
    tableName := "N"
    tableRows := "2"
    tableColumns := "1"
    tableHeaders := ["H"]
    tableColumnDefs := [{ name := "H", type := "text", options := none }] }

/-- Claim C1, witness: the amended theorem applied to a concrete accepted
`htmltable` draft. -/
theorem claim_C1_witness :
    (buildColumn cw1).tableColumns = some ((cw1.tableHeaders.length : Int)) ∧
    ((buildColumn cw1).tableColumnDefs.getD []).length = cw1.tableHeaders.length ∧
    ((buildColumn cw1).tableHeaders.getD []).length = cw1.tableHeaders.length :=
  claim_C1 cw1 (buildColumn cw1) (resetAfterAdd cw1 (buildColumn cw1))
    (by decide) rfl (by decide)

/-- Claim C8: a yes/no-typed table cell whose stored or entered value is
unset or empty yields the value `"false"` in the fill-in (`htmltable`) cell
renderer, and displays as `"false"` — never as an empty cell — in the
read-only (`htmlrender`) renderer. -/
theorem claim_C8 (fd : List (String × String)) (f : ColumnConfig) (r c : Nat) :
    ((htmltableColDef f c).type = "yesno" → jsFalsy (rawCellVal fd f r c) = true →
      htmltableCellVal fd f r c = some "false") ∧
    ((htmlrenderColDef f c).type = "yesno" →
      (renderCellValue f r c = "" → htmlrenderDisplay f r c = "false") ∧
      htmlrenderDisplay f r c ≠ "") := by
  refine ⟨fun ht hf => ?_, fun ht => ⟨fun hc => ?_, ?_⟩⟩
  · simp [htmltableCellVal, ht, hf]
  · simp [htmlrenderDisplay, ht, hc]
  · unfold htmlrenderDisplay
    by_cases hcv : renderCellValue f r c = ""
    · simp [ht, hcv]
    · simp [ht, hcv]

/-- A stored `htmltable` field with a single yes/no column and no cell
data. -/
def cw8 : ColumnConfig :=
  { label := "t", internalName := "t", type := "htmltable", required := false
    order := some 1, tableName := some "T", tableRows := some 1
    tableColumns := some 1, tableHeaders := some ["H"]
    tableColumnDefs := some [{ name := "H", type := "yesno", options := none }]
    tableData := some [] }

/-- Claim C8, witness: with no entered answer and no stored cell, both
renderers produce `"false"` for the yes/no cell. -/
theorem claim_C8_witness :
    htmltableCellVal [] cw8 0 0 = some "false" ∧ htmlrenderDisplay cw8 0 0 = "false" :=
  ⟨(claim_C8 [] cw8 0 0).1 (by decide) (by decide),
   ((claim_C8 [] cw8 0 0).2 (by decide)).1 (by decide)⟩

/-- Claim C9: rendering a field whose type has no case in the dispatch
(including the builder-offered `person` type) logs one diagnostic and
returns no control; the dispatch is a total function, so it cannot throw. -/
theorem claim_C9 (fd : List (String × String)) (f : ColumnConfig)
    (h : f.type ∉ knownFieldTypes) :
    renderDynamicField fd f = (none, ["Unsupported field type: " ++ f.type]) := by
  simp only [knownFieldTypes, List.mem_cons, List.not_mem_nil, or_false, not_or] at h
  obtain ⟨h1, h2, h3, h4, h5, h6, h7, h8, h9, h10, h11, h12⟩ := h
  simp [renderDynamicField, h1, h2, h3, h4, h5, h6, h7, h8, h9, h10, h11, h12]

/-- Claim C9, witness: the unregistered type `"unknown"` renders nothing
and logs the diagnostic. -/
theorem claim_C9_witness :
    renderDynamicField []
      { label := "x", internalName := "x", type := "unknown",
        required := false, order := some 1 } =
      (none, ["Unsupported field type: unknown"]) :=
  claim_C9 []
    { label := "x", internalName := "x", type := "unknown",
      required := false, order := some 1 } (by decide)

/-! ### The cell-grid lemmas for `_setTableCell` -/

/-- Cell access in a row-major grid (`undefined` is `none`). -/
def cellAt (g : List (List String)) (i j : Nat) : Option String :=
  g[i]?.bind (fun row => row[j]?)

theorem getElem?_append_replicate {α : Type} (l : List α) (n : Nat) (a : α) (i : Nat) :
    (l ++ List.replicate n a)[i]? =
      if i < l.length then l[i]?
      else if i < l.length + n then some a else none := by
  by_cases h : i < l.length
  · rw [List.getElem?_append_left h, if_pos h]
  · rw [List.getElem?_append_right (Nat.le_of_not_lt h), if_neg h]
    rw [List.getElem?_replicate]
    by_cases h2 : i < l.length + n
    · rw [if_pos (by omega), if_pos h2]
    · rw [if_neg (by omega), if_neg h2]

theorem setTableCell_length (s : BuilderState) (r c : Nat) (v : String) :
    (setTableCell s r c v).tableData.length = max s.tableData.length (r + 1) := by
  simp [setTableCell]
  omega

theorem setTableCell_getElem_ne (s : BuilderState) (r c : Nat) (v : String)
    {i : Nat} (hi : i ≠ r) :
    (setTableCell s r c v).tableData[i]? =
      if i < s.tableData.length then s.tableData[i]?
      else if i < max s.tableData.length (r + 1) then
        some (List.replicate (newRowLen s.tableColumns c) "") else none := by
  have hm : s.tableData.length + (r + 1 - s.tableData.length) =
      max s.tableData.length (r + 1) := by omega
  simp only [setTableCell]
  rw [List.getElem?_set_ne (Ne.symm hi), getElem?_append_replicate, hm]

theorem setTableCell_getElem_target_lt (s : BuilderState) (r c : Nat) (v : String)
    (hr : r < s.tableData.length) :
    (setTableCell s r c v).tableData[r]? =
      some (((s.tableData.getD r []) ++
        List.replicate (c + 1 - (s.tableData.getD r []).length) "").set c v) := by
  simp only [setTableCell]
  have hrow : (s.tableData ++
      List.replicate (r + 1 - s.tableData.length)
        (List.replicate (newRowLen s.tableColumns c) "")).getD r [] =
      s.tableData.getD r [] := by
    rw [List.getD_eq_getElem?_getD, List.getElem?_append_left hr,
      ← List.getD_eq_getElem?_getD]
  rw [hrow]
  rw [List.getElem?_set_self]
  simp
  omega

theorem setTableCell_getElem_target_ge (s : BuilderState) (r c : Nat) (v : String)
    (hr : s.tableData.length ≤ r) :
    (setTableCell s r c v).tableData[r]? =
      some ((List.replicate (newRowLen s.tableColumns c) "" ++
        List.replicate (c + 1 - newRowLen s.tableColumns c) "").set c v) := by
  simp only [setTableCell]
  have hrow : (s.tableData ++
      List.replicate (r + 1 - s.tableData.length)
        (List.replicate (newRowLen s.tableColumns c) "")).getD r [] =
      List.replicate (newRowLen s.tableColumns c) "" := by
    rw [List.getD_eq_getElem?_getD, List.getElem?_append_right hr,
      List.getElem?_replicate, if_pos (by omega)]
    rfl
  rw [hrow, List.length_replicate]
  rw [List.getElem?_set_self]
  simp
  omega

/-- A value placed by `List.set` at an index below the padded length. -/
theorem padded_set_getElem (row : List String) (c : Nat) (v : String) :
    ((row ++ List.replicate (c + 1 - row.length) "").set c v)[c]? = some v := by
  rw [List.getElem?_set_self]
  simp
  omega

/-- Frame part of `_setTableCell`: pre-existing cells other than the
target keep their value. -/
theorem setTableCell_preserve (s : BuilderState) (r c : Nat) (v : String) :
    ∀ i j x, (i ≠ r ∨ j ≠ c) → cellAt s.tableData i j = some x →
      cellAt (setTableCell s r c v).tableData i j = some x := by
  · intro i j x hij hold
    simp only [cellAt] at hold ⊢
    cases hrow : s.tableData[i]? with
    | none => rw [hrow] at hold; cases hold
    | some row =>
      rw [hrow] at hold
      simp only [Option.some_bind] at hold
      obtain ⟨hi_lt, -⟩ := List.getElem?_eq_some_iff.mp hrow
      by_cases hir : i = r
      · subst hir
        have hjc : j ≠ c := hij.resolve_left (fun hh => hh rfl)
        rw [setTableCell_getElem_target_lt s i c v hi_lt]
        simp only [Option.some_bind]
        rw [List.getElem?_set_ne (Ne.symm hjc), getElem?_append_replicate]
        have hgd : s.tableData.getD i [] = row := by
          rw [List.getD_eq_getElem?_getD, hrow]
          rfl
        rw [hgd]
        have hj_lt : j < row.length := (List.getElem?_eq_some_iff.mp hold).1
        rw [if_pos hj_lt, hold]
      · rw [setTableCell_getElem_ne s r c v hir, if_pos hi_lt, hrow]
        simpa using hold

/-- Padding part of `_setTableCell`: every newly created cell other than
the target holds the empty string. -/
theorem setTableCell_padding (s : BuilderState) (r c : Nat) (v : String) :
    ∀ i j x, (i ≠ r ∨ j ≠ c) → cellAt s.tableData i j = none →
      cellAt (setTableCell s r c v).tableData i j = some x → x = "" := by
  · intro i j x hij hnone hsome
    simp only [cellAt] at hnone hsome
    by_cases hir : i = r
    · subst hir
      have hjc : j ≠ c := hij.resolve_left (fun hh => hh rfl)
      by_cases hr : i < s.tableData.length
      · rw [setTableCell_getElem_target_lt s i c v hr] at hsome
        simp only [Option.some_bind] at hsome
        rw [List.getElem?_set_ne (Ne.symm hjc), getElem?_append_replicate] at hsome
        have hget : s.tableData[i]? = some (s.tableData.getD i []) := by
          rw [List.getD_eq_getElem?_getD,
            List.getElem?_eq_getElem hr]
          rfl
        rw [hget] at hnone
        simp only [Option.some_bind] at hnone
        by_cases hj : j < (s.tableData.getD i []).length
        · rw [if_pos hj] at hsome
          rw [hnone] at hsome
          cases hsome
        · rw [if_neg hj] at hsome
          split at hsome
          · cases hsome
            rfl
          · cases hsome
      · rw [setTableCell_getElem_target_ge s i c v (Nat.le_of_not_lt hr)] at hsome
        simp only [Option.some_bind] at hsome
        rw [List.getElem?_set_ne (Ne.symm hjc), getElem?_append_replicate] at hsome
        by_cases hj : j < (List.replicate (newRowLen s.tableColumns c) "").length
        · rw [if_pos hj, List.getElem?_replicate] at hsome
          rw [List.length_replicate] at hj
          rw [if_pos hj] at hsome
          cases hsome
          rfl
        · rw [if_neg hj] at hsome
          split at hsome
          · cases hsome
            rfl
          · cases hsome
    · rw [setTableCell_getElem_ne s r c v hir] at hsome
      by_cases hi : i < s.tableData.length
      · rw [if_pos hi] at hsome
        rw [hnone] at hsome
        cases hsome
      · rw [if_neg hi] at hsome
        split at hsome
        · simp only [Option.some_bind, List.getElem?_replicate] at hsome
          split at hsome
          · cases hsome
            rfl
          · cases hsome
        · cases hsome

/-- Target part of `_setTableCell`: cell `(r, c)` receives the new value. -/
theorem setTableCell_target (s : BuilderState) (r c : Nat) (v : String) :
    cellAt (setTableCell s r c v).tableData r c = some v := by
  · simp only [cellAt]
    by_cases hr : r < s.tableData.length
    · rw [setTableCell_getElem_target_lt s r c v hr]
      simp only [Option.some_bind]
      exact padded_set_getElem _ c v
    · rw [setTableCell_getElem_target_ge s r c v (Nat.le_of_not_lt hr)]
      simp only [Option.some_bind]
      have := padded_set_getElem (List.replicate (newRowLen s.tableColumns c) "") c v
      rw [List.length_replicate] at this
      exact this

/-- Claim C10: `setTableCell` is frame-preserving — every pre-existing cell
other than the target keeps its value, every newly created padding cell is
the empty string, the target cell gets the new value, and no rows beyond
index `r` are added (the row count becomes `max (old count) (r + 1)`). -/
theorem claim_C10 (s : BuilderState) (r c : Nat) (v : String) :
    (setTableCell s r c v).tableData.length = max s.tableData.length (r + 1) ∧
    (∀ i j x, (i ≠ r ∨ j ≠ c) → cellAt s.tableData i j = some x →
      cellAt (setTableCell s r c v).tableData i j = some x) ∧
    (∀ i j x, (i ≠ r ∨ j ≠ c) → cellAt s.tableData i j = none →
      cellAt (setTableCell s r c v).tableData i j = some x → x = "") ∧
    cellAt (setTableCell s r c v).tableData r c = some v :=
  ⟨setTableCell_length s r c v, setTableCell_preserve s r c v,
   setTableCell_padding s r c v, setTableCell_target s r c v⟩

/-- A grid-less builder state declaring two table columns. -/
def cw10 : BuilderState :=
  { emptyBuilder with tableData := [["a"]], tableColumns := "1" }

/-- Claim C10, witness: writing cell (1,0) preserves the pre-existing cell
(0,0) and stores the new value. -/
theorem claim_C10_witness :
    cellAt (setTableCell cw10 1 0 "x").tableData 0 0 = some "a" ∧
    cellAt (setTableCell cw10 1 0 "x").tableData 1 0 = some "x" :=
  ⟨(claim_C10 cw10 1 0 "x").2.1 0 0 "a" (Or.inl (by decide)) (by decide),
   (claim_C10 cw10 1 0 "x").2.2.2⟩

/-- Claim C4, corrected: `setTableCell(r, c, v)` grows the grid to at least
`r + 1` rows; each newly created row other than the target is sized to
`Number(tableColumns) || (c + 1)` — the declared column count when it is a
non-zero number, and `c + 1` otherwise — NOT to the greater of the two; the
target row is padded to at least `c + 1` cells and receives `v` at `(r, c)`;
on an initially-empty grid every cell other than `(r, c)` is the empty
string. -/
theorem claim_C4 (s : BuilderState) (r c : Nat) (v : String) :
    (setTableCell s r c v).tableData.length = max s.tableData.length (r + 1) ∧
    (∀ i, s.tableData.length ≤ i → i ≠ r → i < max s.tableData.length (r + 1) →
      (setTableCell s r c v).tableData[i]? =
        some (List.replicate (newRowLen s.tableColumns c) "")) ∧
    (∀ row, (setTableCell s r c v).tableData[r]? = some row →
      c + 1 ≤ row.length ∧ row[c]? = some v) ∧
    (s.tableData = [] → ∀ i j x, ¬(i = r ∧ j = c) →
      cellAt (setTableCell s r c v).tableData i j = some x → x = "") := by
  refine ⟨setTableCell_length s r c v, ?_, ?_, ?_⟩
  · intro i hge hir hlt
    rw [setTableCell_getElem_ne s r c v hir, if_neg (by omega), if_pos hlt]
  · intro row hrow
    by_cases hr : r < s.tableData.length
    · rw [setTableCell_getElem_target_lt s r c v hr] at hrow
      cases hrow
      constructor
      · simp
        omega
      · exact padded_set_getElem _ c v
    · rw [setTableCell_getElem_target_ge s r c v (Nat.le_of_not_lt hr)] at hrow
      cases hrow
      constructor
      · simp
        omega
      · have := padded_set_getElem (List.replicate (newRowLen s.tableColumns c) "") c v
        rw [List.length_replicate] at this
        exact this
  · intro hempty i j x hij hsome
    refine setTableCell_padding s r c v i j x ?_ ?_ hsome
    · by_cases hir : i = r
      · exact Or.inr (fun hjc => hij ⟨hir, hjc⟩)
      · exact Or.inl hir
    · rw [hempty]
      rfl

/-- An empty grid with two declared table columns. -/
def cx4 : BuilderState := { emptyBuilder with tableColumns := "2" }

/-- Claim C4, counterexample to the frozen claim: after
`setTableCell(1, 3, "v")` on an empty grid with `tableColumns = "2"`, the
newly created row 0 has 2 cells — not `max tableColumns (col + 1) = 4` as
claimed. -/
theorem claim_C4_counterexample :
    ((setTableCell cx4 1 3 "v").tableData[0]?.getD []).length = 2 ∧
    max 2 (3 + 1) = 4 ∧ (2 : Nat) ≠ 4 :=
  ⟨by decide, by decide, by decide⟩

/-- Claim C4, witness: the amended theorem at the same concrete input —
row 0 is sized by `Number(tableColumns) || (c+1)` and the target row holds
`"v"` at index 3. -/
theorem claim_C4_witness :
    (setTableCell cx4 1 3 "v").tableData[0]? =
      some (List.replicate (newRowLen cx4.tableColumns 3) "") ∧
    (3 + 1 ≤ (["", "", "", "v"] : List String).length ∧
      (["", "", "", "v"] : List String)[3]? = some "v") :=
  ⟨(claim_C4 cx4 1 3 "v").2.1 0 (by decide) (by decide) (by decide),
   (claim_C4 cx4 1 3 "v").2.2.1 ["", "", "", "v"] (by decide)⟩

/-! ### Round-trip lemmas for the serializer -/

theorem decodeStrs_encode (l : List String) : decodeStrs (l.map Json.str) = some l := by
  induction l with
  | nil => rfl
  | cons a l ih => simp [decodeStrs, decodeStr, ih]

theorem decodeStrList_encode (l : List String) :
    decodeStrList (encodeStrList l) = some l := by
  simp [decodeStrList, encodeStrList, decodeStrs_encode]

theorem decodeGridRows_encode (g : List (List String)) :
    decodeGridRows (g.map encodeStrList) = some g := by
  induction g with
  | nil => rfl
  | cons r g ih => simp [decodeGridRows, decodeStrList_encode, ih]

theorem decodeGrid_encode (g : List (List String)) :
    decodeGrid (encodeGrid g) = some g := by
  simp [decodeGrid, encodeGrid, decodeGridRows_encode]

theorem decodeColDef_encode (d : ColDef) : decodeColDef (encodeColDef d) = some d := by
  obtain ⟨name, ty, opts⟩ := d
  cases opts <;>
    simp [decodeColDef, encodeColDef, optField, jlookup, decodeStr, decodeOpt,
      decodeStrList_encode]

theorem decodeColDefs_encode (ds : List ColDef) :
    decodeColDefs (ds.map encodeColDef) = some ds := by
  induction ds with
  | nil => rfl
  | cons d ds ih => simp [decodeColDefs, decodeColDef_encode, ih]

theorem decodeColDefList_encode (ds : List ColDef) :
    decodeColDefList (encodeColDefList ds) = some ds := by
  simp [decodeColDefList, encodeColDefList, decodeColDefs_encode]

theorem decodeOrderField_encode (o : Option Int) :
    decodeOrderField (some (encodeOrder o)) = some o := by
  cases o <;> rfl

theorem decodeOpt_str (o : Option String) :
    decodeOpt decodeStr (o.map Json.str) = some o := by
  cases o <;> rfl

theorem decodeOpt_num (o : Option Int) :
    decodeOpt decodeNum (o.map Json.num) = some o := by
  cases o <;> rfl

theorem decodeOpt_strList (o : Option (List String)) :
    decodeOpt decodeStrList (o.map encodeStrList) = some o := by
  cases o <;> simp [decodeOpt, decodeStrList_encode]

theorem decodeOpt_colDefList (o : Option (List ColDef)) :
    decodeOpt decodeColDefList (o.map encodeColDefList) = some o := by
  cases o <;> simp [decodeOpt, decodeColDefList_encode]

theorem decodeOpt_grid (o : Option (List (List String))) :
    decodeOpt decodeGrid (o.map encodeGrid) = some o := by
  cases o <;> simp [decodeOpt, decodeGrid_encode]

theorem jlookup_optField_ne {k key : String} (h : k ≠ key) (o : Option Json)
    (rest : List (String × Json)) :
    jlookup (optField k o ++ rest) key = jlookup rest key := by
  cases o <;> simp [optField, jlookup, h]

theorem jlookup_optField_self (k : String) (o : Option Json)
    (rest : List (String × Json)) (h : jlookup rest k = none) :
    jlookup (optField k o ++ rest) k = o := by
  cases o with
  | none => simpa [optField] using h
  | some j => simp [optField, jlookup]

theorem jlookup_optField_last_ne {k key : String} (h : k ≠ key) (o : Option Json) :
    jlookup (optField k o) key = none := by
  cases o <;> simp [optField, jlookup, h]

theorem jlookup_optField_last_self (k : String) (o : Option Json) :
    jlookup (optField k o) k = o := by
  cases o <;> simp [optField, jlookup]

theorem decodeColumn_encode (c : ColumnConfig) : decodeColumn (encodeColumn c) = some c := by
  obtain ⟨label, iname, ty, req, ord, opts, tname, trows, tcols, theads, tdefs, tdata, thtml⟩ := c
  simp only [decodeColumn, encodeColumn, encodeColumnKVs, List.cons_append,
    List.append_assoc, List.nil_append]
  simp [jlookup, jlookup_optField_ne, jlookup_optField_self, jlookup_optField_last_ne,
    jlookup_optField_last_self, decodeStr, decodeBool, decodeOrderField_encode,
    decodeOpt_str, decodeOpt_num, decodeOpt_strList, decodeOpt_colDefList, decodeOpt_grid]

theorem decodeColumns_encode (cs : List ColumnConfig) :
    decodeColumns (cs.map encodeColumn) = some cs := by
  induction cs with
  | nil => rfl
  | cons c cs ih => simp [decodeColumns, decodeColumn_encode, ih]

theorem deserialize_encodeDoc (d : FormDoc) : deserialize (encodeDoc d) = some d := by
  obtain ⟨t, desc, fields⟩ := d
  simp [deserialize, encodeDoc, jlookup, decodeStr, decodeColumns_encode]

/-! ### Sorting lemmas for the serializer -/

theorem orderLe_trans : ∀ (a b c : ColumnConfig),
    orderLe a b → orderLe b c → orderLe a c := by
  intro a b c hab hbc
  simp only [orderLe, decide_eq_true_eq] at hab hbc ⊢
  omega

theorem orderLe_total : ∀ (a b : ColumnConfig), orderLe a b || orderLe b a := by
  intro a b
  simp only [orderLe, Bool.or_eq_true, decide_eq_true_eq]
  omega

theorem submitForm_fields {s : BuilderState} {doc : FormDoc}
    (h : submitForm s = some doc) :
    doc = { formTitle := s.formTitle, description := s.description
            fields := sortFields s.columns } := by
  unfold submitForm at h
  split at h
  · cases h
  · split at h
    · cases h
    · simp only [Option.some.injEq] at h
      exact h.symm

/-- Claim C3: the serialized document's `fields` array is sorted by `order`
ascending regardless of insertion order, the sort is stable (ties keep
their insertion-relative positions, stated as: any order-tied pair that
appears in insertion order reappears in the serialized order), it loses no
fields (the output is a permutation of the schema's field list), and
`deserialize (serialize s)` reproduces the serialized document exactly —
same field sequence, same field values.  The hypothesis `hnum` restricts to
schemas whose orders are actual numbers: with a `NaN` order the ECMAScript
comparator `a.order - b.order` is inconsistent and the sort result is
implementation-defined, so nothing is claimed there. -/
theorem claim_C3 (s : BuilderState) (doc : FormDoc)
    (h : submitForm s = some doc)
    (_hnum : ∀ col ∈ s.columns, Option.isSome col.order = true) :
    doc.fields.Pairwise (fun a b => a.order.getD 0 ≤ b.order.getD 0) ∧
    List.Perm doc.fields s.columns ∧
    (∀ a b, a.order = b.order → List.Sublist [a, b] s.columns →
      List.Sublist [a, b] doc.fields) ∧
    serialize s = some (encodeDoc doc) ∧
    deserialize (encodeDoc doc) = some doc := by
  have hdoc := submitForm_fields h
  subst hdoc
  refine ⟨?_, ?_, ?_, ?_, ?_⟩
  · have hs := List.sorted_mergeSort orderLe_trans orderLe_total s.columns
    exact hs.imp (fun hab => by simpa [orderLe] using hab)
  · exact List.mergeSort_perm s.columns orderLe
  · intro a b hab hsub
    exact List.pair_sublist_mergeSort orderLe_trans orderLe_total
      (by simp [orderLe, hab]) hsub
  · simp [serialize, h]
  · exact deserialize_encodeDoc _

/-- A builder with a valid title and two fields inserted in the order 3, 1. -/
def cw3 : BuilderState :=
  { emptyBuilder with
    formTitle := "F"
    columns :=
      [{ label := "a", internalName := "a", type := "text", required := false, order := some 3 },
       { label := "b", internalName := "b", type := "text", required := false, order := some 1 }] }

/-- The document `submitForm` produces for `cw3`: fields re-sorted to the
order 1, 3. -/
def cw3doc : FormDoc :=
  { formTitle := "F", description := ""
    fields :=
      [{ label := "b", internalName := "b", type := "text", required := false, order := some 1 },
       { label := "a", internalName := "a", type := "text", required := false, order := some 3 }] }

/-- Claim C3, witness: the theorem applied to the concrete unsorted
two-field schema. -/
theorem claim_C3_witness :
    cw3doc.fields.Pairwise (fun a b => a.order.getD 0 ≤ b.order.getD 0) ∧
    List.Perm cw3doc.fields cw3.columns ∧
    deserialize (encodeDoc cw3doc) = some cw3doc := by
  have h := claim_C3 cw3 cw3doc
    (by simp [submitForm, sortFields, List.mergeSort, List.merge, cw3, cw3doc,
          emptyBuilder, jsTrim, orderLe])
    (by decide)
  exact ⟨h.1, h.2.1, h.2.2.2.2⟩

end TXFB
